import Mathlib

/-!
Shallow embedding of `src/utilities.py` (PSL-Complete-Data-Analysis).

The file system, the HTTP client (`requests`), the zip decoder (`zipfile`),
the pandas CSV parser and the kagglehub download service are external
collaborators of the code; they are modelled as explicit state (`FS`) and as
oracle parameters. The four functions `unzip_file`, `move_to_project`,
`csv_to_df` and `read_kaggle_dataset` are translated from the source,
keeping their names, control flow, error messages and the order of
side effects. Bytes are `Nat`, file contents are `List Nat`, paths are
`String`.
-/

/-- The Python exceptions raised, directly or by library calls, in the code of
`utilities.py`: `FileNotFoundError` (lines 35, 80, 84, 89, and a missing copy
source), `ValueError` (lines 38, 136, 146), `shutil.SameFileError` and
`IsADirectoryError` (possible outcomes of `shutil.copy` on line 98), and
`zipfile.BadZipFile` (possible outcome of opening the archive on line 47). -/
inductive PyErr where
  | fileNotFoundError (msg : String)
  | valueError (msg : String)
  | isADirectoryError (msg : String)
  | sameFileError (msg : String)
  | badZipFile (msg : String)
  deriving DecidableEq

/-- Python `str.lower()` (ASCII case folding, which covers the `.zip` test). -/
def pyLower (s : String) : String := String.mk (s.toList.map Char.toLower)

/-- Python `str.startswith`. -/
def pyStartsWith (s pre : String) : Bool := pre.toList.isPrefixOf s.toList

/-- Python `str.endswith`. -/
def pyEndsWith (s suffix : String) : Bool := suffix.toList.isSuffixOf s.toList

/-- `path_or_url.split("?")[0]` of line 125: the part before the first `?`. -/
def stripQuery (u : String) : String := String.mk (u.toList.takeWhile (fun c => c != '?'))

/-- Python `os.path.basename`: everything after the last `/`. -/
def pyBasename (p : String) : String :=
  String.mk ((p.toList.reverse.takeWhile (fun c => c != '/')).reverse)

/-- Python `os.path.join` on POSIX, for the two-argument uses in the source. -/
def pathJoin (a b : String) : String :=
  if pyStartsWith b "/" then b
  else if a = "" ∨ pyEndsWith a "/" = true then a ++ b
  else a ++ "/" ++ b

/-- Index of the last occurrence of `c` in `cs`, as in CPython `str.rfind`
(`-1` when absent). -/
def rfind (cs : List Char) (c : Char) : Int :=
  match cs.reverse.findIdx? (fun x => x == c) with
  | some i => (cs.length : Int) - 1 - i
  | none => -1

/-- `os.path.splitext(p)[0]`, following the CPython implementation: strip the
final dot-extension, unless the dots only lead the basename. -/
def splitextRoot (p : String) : String :=
  let cs := p.toList
  let sepIndex := rfind cs '/'
  let dotIndex := rfind cs '.'
  if sepIndex < dotIndex ∧
      (((cs.drop (sepIndex + 1).toNat).take (dotIndex - sepIndex - 1).toNat).any
        (fun ch => ch != '.')) = true then
    String.mk (cs.take dotIndex.toNat)
  else p

/-- Split a character list at a separator, like Python `str.split`. -/
def splitChar (sep : Char) : List Char → List (List Char)
  | [] => [[]]
  | c :: rest =>
    match splitChar sep rest with
    | [] => if c = sep then [[], []] else [[c]]
    | h :: t => if c = sep then [] :: h :: t else (c :: h) :: t

/-- Rebuild a path from components (intercalation with the separator). -/
def joinParts (sep : Char) : List (List Char) → List Char
  | [] => []
  | [x] => x
  | x :: y :: t => x ++ sep :: joinParts sep (y :: t)

/-- The chain of paths that `os.makedirs p` creates: every component-wise
ancestor of `p`, ending with `p` itself. -/
def ancestorPaths (p : String) : List String :=
  let parts := splitChar '/' p.toList
  (List.range parts.length).map (fun i => String.mk (joinParts '/' (parts.take (i + 1))))

/-- The observable state of the file system: file contents and directory
listings, both partial maps on paths. `dirs p = some es` means `p` is a
directory whose `os.listdir` returns the entry names `es`. -/
structure FS where
  files : String → Option (List Nat)
  dirs : String → Option (List String)

/-- `os.path.isfile`. -/
def FS.isFile (fs : FS) (p : String) : Bool := (fs.files p).isSome

/-- `os.path.isdir`. -/
def FS.isDir (fs : FS) (p : String) : Bool := (fs.dirs p).isSome

/-- `os.listdir`. -/
def FS.listdir (fs : FS) (p : String) : List String := (fs.dirs p).getD []

/-- Write (create or overwrite) the file at `p` with content `c`. -/
def FS.writeFile (fs : FS) (p : String) (c : List Nat) : FS :=
  { fs with files := fun q => if q = p then some c else fs.files q }

/-- Create the single directory `p` if absent (no effect on an existing one). -/
def FS.mkdirOne (fs : FS) (p : String) : FS :=
  if (fs.dirs p).isSome then fs
  else { fs with dirs := fun q => if q = p then some [] else fs.dirs q }

/-- `os.makedirs(p, exist_ok=True)`: create `p` and every missing ancestor. -/
def FS.makedirs (fs : FS) (p : String) : FS :=
  ((ancestorPaths p).foldl FS.mkdirOne fs).mkdirOne p

/-- `shutil.copy(src, dst)`: read the whole content of `src` and write it to
`dst` (or to `dst/basename(src)` when `dst` is a directory), overwriting any
existing file there; `SameFileError` when source and destination are the same
path, `IsADirectoryError` when `src` is a directory, `FileNotFoundError` when
it does not exist. -/
def shutilCopy (fs : FS) (src dst : String) : Except PyErr FS :=
  match fs.files src with
  | some c =>
    let d := if fs.isDir dst = true then pathJoin dst (pyBasename src) else dst
    if src = d then .error (.sameFileError src)
    else .ok (fs.writeFile d c)
  | none =>
    if fs.isDir src = true then .error (.isADirectoryError src)
    else .error (.fileNotFoundError src)

/-- `unzip_file` (utilities.py lines 9-52). `uz` is the zip decoder oracle: the
members (name, content) stored in an archive's bytes, `none` for a corrupt
archive (`zipfile.BadZipFile`). The `os.path.isfile` check of line 34 is the
lookup of the path among the files. -/
def unzip_file (uz : List Nat → Option (List (String × List Nat))) (fs : FS)
    (zip_path : String) (extract_dir : Option String := none) :
    Except PyErr (String × FS) :=
  match fs.files zip_path with
  | none => .error (.fileNotFoundError ("No file found at: " ++ zip_path))
  | some content =>
    if pyEndsWith (pyLower zip_path) ".zip" = false then
      .error (.valueError ("File is not a ZIP archive: " ++ zip_path))
    else
      let dir := extract_dir.getD (splitextRoot zip_path)
      let fs1 := fs.makedirs dir
      match uz content with
      | none => .error (.badZipFile zip_path)
      | some members =>
        .ok (dir, members.foldl (fun a m => a.writeFile (pathJoin dir m.1) m.2) fs1)

/-- Lines 94-99 of `move_to_project`: join the source path, create the target
directory, `shutil.copy` the selected file and return the destination path. -/
def finishCopy (fs : FS) (src_dir target_dir selected_file : String) :
    Except PyErr (String × FS) :=
  let src_file := pathJoin src_dir selected_file
  let fs1 := fs.makedirs target_dir
  let dest_file := pathJoin target_dir selected_file
  match shutilCopy fs1 src_file dest_file with
  | .error e => .error e
  | .ok fs2 => .ok (dest_file, fs2)

/-- `move_to_project` (utilities.py lines 55-99). `some ""` mirrors Python's
falsy empty `filename`, which takes the `files[0]` branch of line 92. -/
def move_to_project (fs : FS) (src_dir target_dir : String)
    (filename : Option String := none) : Except PyErr (String × FS) :=
  if fs.isDir src_dir = false then
    .error (.fileNotFoundError ("Source directory not found: " ++ src_dir))
  else
    let files := fs.listdir src_dir
    if files.isEmpty then
      .error (.fileNotFoundError ("No files found in source directory: " ++ src_dir))
    else
      match filename with
      | some f =>
        if f = "" then finishCopy fs src_dir target_dir (files.headD "")
        else if files.contains f then finishCopy fs src_dir target_dir f
        else
          .error (.fileNotFoundError
            ("Specified file \x27" ++ f ++ "\x27 not found in source directory"))
      | none => finishCopy fs src_dir target_dir (files.headD "")

/-- An in-memory table, as produced by the pandas parser oracle. -/
abbrev Table := List (List String)

/-- The HTTP client (`requests`): one GET per call. `.error` is a raised
transport exception with its message, `.ok (status, body)` a response. -/
structure Http where
  get : String → Except String (Nat × List Nat)

/-- `csv_to_df` (utilities.py lines 102-148). `read_csv` is the pandas CSV
parser oracle, applied to the bytes of the file it is pointed at.
`response.raise_for_status()` raises exactly for status codes in `[400, 600)`;
the `isinstance(path_or_url, str)` test of line 120 is always true here.
The `os.path.isfile` check of line 142 is the lookup among the files. -/
def csv_to_df (http : Http) (read_csv : List Nat → Table) (fs : FS)
    (path_or_url : String) (download_dir : String := "data") :
    Except PyErr (Table × FS) :=
  if pyStartsWith path_or_url "http://" || pyStartsWith path_or_url "https://" then
    let fs1 := fs.makedirs download_dir
    let filename := pyBasename (stripQuery path_or_url)
    let local_path := pathJoin download_dir filename
    match http.get path_or_url with
    | .error e => .error (.valueError ("Failed to download CSV from URL: " ++ e))
    | .ok (status, content) =>
      if 400 ≤ status ∧ status < 600 then
        .error (.valueError ("Failed to download CSV from URL: HTTPError " ++ toString status))
      else
        .ok (read_csv content, fs1.writeFile local_path content)
  else
    match fs.files path_or_url with
    | some c => .ok (read_csv c, fs)
    | none => .error (.valueError "Input must be a valid CSV file path or URL.")

/-- `read_kaggle_dataset` (utilities.py lines 151-171). `dataset_download` is
the opaque `kagglehub.dataset_download` oracle; `cwd` is the working directory
at definition time (`os.getcwd()`), the default `target` being its `data`
subdirectory. The function has no filename parameter: `move_to_project` is
called without one. -/
def read_kaggle_dataset (http : Http) (read_csv : List Nat → Table)
    (dataset_download : String → String) (cwd : String) (fs : FS) (url : String)
    (target : String := pathJoin cwd "data") : Except PyErr (Table × FS) :=
  match move_to_project fs (dataset_download url) target none with
  | .error e => .error e
  | .ok (dest_file, fs1) => csv_to_df http read_csv fs1 dest_file

/-- Modelled from the spec: the Dataset Orchestrator contract of spec sections
4.4 and 6 (`fetch_hosted_dataset(identifier, target_dir=default, filename=None)`),
which, unlike the code, also accepts an optional target filename and passes it
to the locator. This definition exists only to compare the code against that
stated contract. -/
def fetch_hosted_dataset_spec (http : Http) (read_csv : List Nat → Table)
    (dataset_download : String → String) (cwd : String) (fs : FS) (url : String)
    (target : String := pathJoin cwd "data") (filename : Option String := none) :
    Except PyErr (Table × FS) :=
  match move_to_project fs (dataset_download url) target filename with
  | .error e => .error e
  | .ok (dest_file, fs1) => csv_to_df http read_csv fs1 dest_file

/-- Observation of a loader result: the table, when the call succeeded. -/
def tableOf (r : Except PyErr (Table × FS)) : Option Table :=
  match r with
  | .ok (t, _) => some t
  | .error _ => none

/-- Observation of a `move_to_project` result: did it raise `FileNotFoundError`
(the spec's NotFound)? -/
def isNotFound (r : Except PyErr (String × FS)) : Bool :=
  match r with
  | .error (.fileNotFoundError _) => true
  | _ => false

/-! Concrete states and oracles used by the witnesses and counterexamples. -/

/-- A file system with one directory `d` holding the single file `a.csv`. -/
def fsA : FS :=
  { files := fun p => if p = "d/a.csv" then some [49, 50] else none,
    dirs := fun p => if p = "d" then some ["a.csv"] else none }

/-- A directory `src` whose only file sits in the subdirectory `src/sub`. -/
def fsN : FS :=
  { files := fun p => if p = "src/sub/a.csv" then some [49] else none,
    dirs := fun p =>
      if p = "src" then some ["sub"]
      else if p = "src/sub" then some ["a.csv"] else none }

/-- A file system holding the single plain file `f.csv` and no directory. -/
def fsF : FS :=
  { files := fun p => if p = "f.csv" then some [49] else none, dirs := fun _ => none }

/-- A file system holding the plain text file `file.txt`. -/
def fsT : FS :=
  { files := fun p => if p = "file.txt" then some [104, 105] else none,
    dirs := fun _ => none }

/-- A kagglehub cache directory holding two CSV files. -/
def fsK : FS :=
  { files := fun p =>
      if p = "cache/b.csv" then some [50]
      else if p = "cache/a.csv" then some [49] else none,
    dirs := fun p => if p = "cache" then some ["b.csv", "a.csv"] else none }

/-- A file system holding the single archive `a.zip`. -/
def fsZ : FS :=
  { files := fun p => if p = "a.zip" then some [80, 75] else none, dirs := fun _ => none }

/-- A file system holding the single archive `b.ZIP` (upper-case extension). -/
def fsU : FS :=
  { files := fun p => if p = "b.ZIP" then some [80, 75] else none, dirs := fun _ => none }

/-- An HTTP client whose GET always raises. -/
def httpOffline : Http := ⟨fun _ => .error "offline"⟩

/-- An HTTP client serving one CSV body at one URL and 404 elsewhere. -/
def httpOne : Http :=
  ⟨fun u => if u = "https://host/data.csv?x=1" then .ok (200, [49, 44, 50]) else .ok (404, [])⟩

/-- A CSV parser oracle: one row holding the bytes rendered as decimal strings. -/
def rcNum : List Nat → Table := fun c => [c.map (fun n => toString n)]

/-- A zip decoder oracle: the archive bytes `[80, 75]` hold one member `m.csv`. -/
def uzOne : List Nat → Option (List (String × List Nat)) :=
  fun c => if c = [80, 75] then some [("m.csv", [49])] else none

/-- A `kagglehub.dataset_download` oracle: every dataset resolves to `cache`. -/
def dlCache : String → String := fun _ => "cache"

/-! Helper lemmas about the file-system model. -/

theorem mkdirOne_files (fs : FS) (p : String) : (fs.mkdirOne p).files = fs.files := by
  unfold FS.mkdirOne; split <;> rfl

theorem foldl_mkdirOne_files : ∀ (l : List String) (fs : FS),
    (l.foldl FS.mkdirOne fs).files = fs.files := by
  intro l
  induction l with
  | nil => intro fs; rfl
  | cons a t ih => intro fs; rw [List.foldl_cons, ih, mkdirOne_files]

theorem makedirs_files (fs : FS) (p : String) : (fs.makedirs p).files = fs.files := by
  unfold FS.makedirs; rw [mkdirOne_files, foldl_mkdirOne_files]

theorem mkdirOne_isDir_self (fs : FS) (p : String) : (fs.mkdirOne p).isDir p = true := by
  unfold FS.mkdirOne FS.isDir
  split
  · next h => exact h
  · simp

theorem mkdirOne_isDir_mono (fs : FS) (p q : String) (h : fs.isDir q = true) :
    (fs.mkdirOne p).isDir q = true := by
  unfold FS.mkdirOne FS.isDir at *
  split
  · exact h
  · by_cases hq : q = p <;> simp [hq, h]

theorem foldl_mkdirOne_isDir_mono : ∀ (l : List String) (fs : FS) (q : String),
    fs.isDir q = true → (l.foldl FS.mkdirOne fs).isDir q = true := by
  intro l
  induction l with
  | nil => intro fs q h; exact h
  | cons a t ih => intro fs q h; exact ih _ _ (mkdirOne_isDir_mono _ _ _ h)

theorem foldl_mkdirOne_isDir_mem : ∀ (l : List String) (fs : FS) (q : String),
    q ∈ l → (l.foldl FS.mkdirOne fs).isDir q = true := by
  intro l
  induction l with
  | nil => intro fs q h; cases h
  | cons a t ih =>
    intro fs q h
    rcases List.mem_cons.mp h with rfl | hm
    · exact foldl_mkdirOne_isDir_mono t _ _ (mkdirOne_isDir_self _ _)
    · exact ih _ _ hm

theorem makedirs_isDir_self (fs : FS) (p : String) : (fs.makedirs p).isDir p = true := by
  unfold FS.makedirs; exact mkdirOne_isDir_self _ _

theorem makedirs_isDir_mono (fs : FS) (p q : String) (h : fs.isDir q = true) :
    (fs.makedirs p).isDir q = true := by
  unfold FS.makedirs
  exact mkdirOne_isDir_mono _ _ _ (foldl_mkdirOne_isDir_mono _ _ _ h)

theorem makedirs_isDir_of_mem (fs : FS) (p q : String) (h : q ∈ ancestorPaths p) :
    (fs.makedirs p).isDir q = true := by
  unfold FS.makedirs
  exact mkdirOne_isDir_mono _ _ _ (foldl_mkdirOne_isDir_mem _ _ _ h)

theorem writeFile_files_self (fs : FS) (p : String) (c : List Nat) :
    (fs.writeFile p c).files p = some c := by
  simp [FS.writeFile]

theorem writeFile_files_ne (fs : FS) (p q : String) (c : List Nat) (h : q ≠ p) :
    (fs.writeFile p c).files q = fs.files q := by
  simp [FS.writeFile, h]

theorem writeFile_dirs (fs : FS) (p : String) (c : List Nat) :
    (fs.writeFile p c).dirs = fs.dirs := rfl

theorem foldl_writeFile_dirs (dir : String) : ∀ (l : List (String × List Nat)) (fs : FS),
    (l.foldl (fun a m => a.writeFile (pathJoin dir m.1) m.2) fs).dirs = fs.dirs := by
  intro l
  induction l with
  | nil => intro fs; rfl
  | cons hd t ih => intro fs; rw [List.foldl_cons, ih, writeFile_dirs]

theorem foldl_writeFile_files_notin (dir : String) :
    ∀ (l : List (String × List Nat)) (fs : FS) (key : String),
      (∀ m ∈ l, pathJoin dir m.1 ≠ key) →
      (l.foldl (fun a m => a.writeFile (pathJoin dir m.1) m.2) fs).files key = fs.files key := by
  intro l
  induction l with
  | nil => intro fs key _; rfl
  | cons hd t ih =>
    intro fs key h
    rw [List.foldl_cons, ih _ _ (fun m hm => h m (List.mem_cons_of_mem _ hm)),
      writeFile_files_ne _ _ _ _ (Ne.symm (h hd (List.mem_cons_self _ _)))]

theorem foldl_writeFile_files_mem (dir : String) :
    ∀ (l : List (String × List Nat)) (fs : FS) (nm : String) (c : List Nat),
      (nm, c) ∈ l → (l.map (fun m => pathJoin dir m.1)).Nodup →
      (l.foldl (fun a m => a.writeFile (pathJoin dir m.1) m.2) fs).files (pathJoin dir nm)
        = some c := by
  intro l
  induction l with
  | nil => intro fs nm c h _; cases h
  | cons hd t ih =>
    intro fs nm c hmem hnd
    rw [List.map_cons, List.nodup_cons] at hnd
    rw [List.foldl_cons]
    rcases List.mem_cons.mp hmem with heq | hm
    · have h1 : hd.1 = nm := by rw [← heq]
      have hkeys : ∀ m ∈ t, pathJoin dir m.1 ≠ pathJoin dir nm := by
        intro m hmt he
        apply hnd.1
        rw [h1, ← he]
        exact List.mem_map_of_mem _ hmt
      rw [foldl_writeFile_files_notin dir t _ _ hkeys, ← heq]
      simp [writeFile_files_self]
    · exact ih _ _ _ hm hnd.2

theorem headD_mem (l : List String) (d : String) (h : l ≠ []) : l.headD d ∈ l := by
  cases l with
  | nil => exact absurd rfl h
  | cons a t => simp

theorem contains_eq_true_iff (l : List String) (a : String) :
    l.contains a = true ↔ a ∈ l := by
  induction l with
  | nil => simp
  | cons b t ih => simp [List.contains_cons, ih]

/-! Mid-level lemmas about the copy step and the loaders. -/

theorem finishCopy_ok (fs : FS) (src tgt sel : String) (c : List Nat)
    (hfile : fs.files (pathJoin src sel) = some c)
    (hnd : (fs.makedirs tgt).isDir (pathJoin tgt sel) = false)
    (hne : pathJoin src sel ≠ pathJoin tgt sel) :
    finishCopy fs src tgt sel =
      .ok (pathJoin tgt sel, (fs.makedirs tgt).writeFile (pathJoin tgt sel) c) := by
  simp only [finishCopy, shutilCopy]
  rw [makedirs_files]
  simp only [hfile, hnd, Bool.false_eq_true, if_false]
  rw [if_neg hne]

theorem finishCopy_inv (fs : FS) (src tgt sel ret : String) (fs2 : FS)
    (hnd : (fs.makedirs tgt).isDir (pathJoin tgt sel) = false)
    (hok : finishCopy fs src tgt sel = .ok (ret, fs2)) :
    ret = pathJoin tgt sel ∧
      ∃ c, fs.files (pathJoin src sel) = some c ∧
        pathJoin src sel ≠ pathJoin tgt sel ∧
        fs2 = (fs.makedirs tgt).writeFile (pathJoin tgt sel) c := by
  simp only [finishCopy] at hok
  rcases hs : shutilCopy (fs.makedirs tgt) (pathJoin src sel) (pathJoin tgt sel) with e | fsw
  · rw [hs] at hok; exact absurd hok (by simp)
  · rw [hs] at hok
    rw [Except.ok.injEq, Prod.mk.injEq] at hok
    simp only [shutilCopy] at hs
    rw [makedirs_files] at hs
    rcases hc : fs.files (pathJoin src sel) with _ | c
    · simp only [hc] at hs
      split at hs <;> simp at hs
    · simp only [hc, hnd, Bool.false_eq_true, if_false] at hs
      split at hs
      · simp at hs
      · next hne =>
        rw [Except.ok.injEq] at hs
        exact ⟨hok.1.symm, c, rfl, hne, by rw [← hok.2, ← hs]⟩

theorem finishCopy_not_notFound (fs : FS) (src tgt sel : String)
    (h : fs.isFile (pathJoin src sel) = true ∨ fs.isDir (pathJoin src sel) = true) :
    isNotFound (finishCopy fs src tgt sel) = false := by
  simp only [finishCopy]
  rcases hs : shutilCopy (fs.makedirs tgt) (pathJoin src sel) (pathJoin tgt sel) with e | fsw
  · simp only [shutilCopy] at hs
    rw [makedirs_files] at hs
    rcases hc : fs.files (pathJoin src sel) with _ | c
    · have hd : fs.isDir (pathJoin src sel) = true := by
        rcases h with h | h
        · rw [FS.isFile, hc] at h; simp at h
        · exact h
      have hd1 : (fs.makedirs tgt).isDir (pathJoin src sel) = true :=
        makedirs_isDir_mono _ _ _ hd
      simp only [hc, hd1, if_true] at hs
      rw [Except.error.injEq] at hs
      rw [← hs]
      simp [isNotFound]
    · simp only [hc] at hs
      split at hs <;> split at hs <;>
        first
          | (rw [Except.error.injEq] at hs
             rw [← hs]
             simp [isNotFound])
          | simp at hs
  · simp [isNotFound]

theorem move_inv (fs : FS) (src tgt : String) (fname : Option String) (ret : String)
    (fs2 : FS) (hok : move_to_project fs src tgt fname = .ok (ret, fs2)) :
    ∃ sel, sel ∈ fs.listdir src ∧ finishCopy fs src tgt sel = .ok (ret, fs2) := by
  have hmem : ∀ h : fs.listdir src ≠ [], (fs.listdir src).headD "" ∈ fs.listdir src :=
    fun h => headD_mem _ _ h
  rcases fname with _ | f
  · simp only [move_to_project] at hok
    split at hok
    · exact absurd hok (by simp)
    · split at hok
      · exact absurd hok (by simp)
      · next hne =>
        refine ⟨(fs.listdir src).headD "", hmem ?_, hok⟩
        intro h; exact hne (by rw [h]; rfl)
  · simp only [move_to_project] at hok
    split at hok
    · exact absurd hok (by simp)
    · split at hok
      · exact absurd hok (by simp)
      · next hne =>
        split at hok
        · refine ⟨(fs.listdir src).headD "", hmem ?_, hok⟩
          intro h; exact hne (by rw [h]; rfl)
        · split at hok
          · next hc => exact ⟨f, (contains_eq_true_iff _ _).mp hc, hok⟩
          · exact absurd hok (by simp)

theorem move_none_ok (fs : FS) (src tgt sel : String) (rest : List String) (c : List Nat)
    (hdir : fs.isDir src = true) (hls : fs.listdir src = sel :: rest)
    (hfile : fs.files (pathJoin src sel) = some c)
    (hnd : (fs.makedirs tgt).isDir (pathJoin tgt sel) = false)
    (hne : pathJoin src sel ≠ pathJoin tgt sel) :
    move_to_project fs src tgt none =
      .ok (pathJoin tgt sel, (fs.makedirs tgt).writeFile (pathJoin tgt sel) c) := by
  have h1 : move_to_project fs src tgt none = finishCopy fs src tgt sel := by
    simp [move_to_project, hdir, hls]
  rw [h1]
  exact finishCopy_ok fs src tgt sel c hfile hnd hne

theorem csv_to_df_local_ok (http : Http) (rc : List Nat → Table) (fs : FS)
    (p d : String) (c : List Nat)
    (h1 : pyStartsWith p "http://" = false) (h2 : pyStartsWith p "https://" = false)
    (hfile : fs.files p = some c) :
    csv_to_df http rc fs p d = .ok (rc c, fs) := by
  simp [csv_to_df, h1, h2, hfile]

/-! Lemmas about list prefixes and suffixes, for the case-insensitivity of the
archive-extension check. -/

theorem isPrefixOf_append_self : ∀ (l t : List Char), l.isPrefixOf (l ++ t) = true := by
  intro l
  induction l with
  | nil => intro t; simp
  | cons a as ih => intro t; simp [List.isPrefixOf_cons₂, ih]

theorem isPrefixOf_exists : ∀ (l₁ l₂ : List Char), l₁.isPrefixOf l₂ = true →
    ∃ t, l₂ = l₁ ++ t := by
  intro l₁
  induction l₁ with
  | nil => intro l₂ _; exact ⟨l₂, rfl⟩
  | cons a as ih =>
    intro l₂ h
    cases l₂ with
    | nil => simp at h
    | cons b bs =>
      rw [List.isPrefixOf_cons₂, Bool.and_eq_true, beq_iff_eq] at h
      obtain ⟨t, ht⟩ := ih bs h.2
      exact ⟨t, by rw [h.1, ht]; rfl⟩

theorem isSuffixOf_exists (l₁ l₂ : List Char) (h : l₁.isSuffixOf l₂ = true) :
    ∃ t, l₂ = t ++ l₁ := by
  unfold List.isSuffixOf at h
  obtain ⟨t, ht⟩ := isPrefixOf_exists _ _ h
  refine ⟨t.reverse, ?_⟩
  have h2 := congrArg List.reverse ht
  simpa [List.reverse_append] using h2

theorem isSuffixOf_append (l t : List Char) : l.isSuffixOf (t ++ l) = true := by
  unfold List.isSuffixOf
  rw [List.reverse_append]
  exact isPrefixOf_append_self _ _

/-! Claims about the Archive Extractor (`unzip_file`). -/

/-- Claim C5: `extract_archive` (`unzip_file`) raises NotFound
(`FileNotFoundError`) for every path that does not reference an existing file,
and raises InvalidFormat (`ValueError`) for every existing file whose
(case-folded) name does not end in the recognized `.zip` archive suffix — the
two sequential checks of lines 34 and 37. -/
theorem unzip_file_C5 (uz : List Nat → Option (List (String × List Nat))) (fs : FS)
    (p : String) (d : Option String) :
    (fs.isFile p = false →
      ∃ msg, unzip_file uz fs p d = .error (.fileNotFoundError msg)) ∧
    (fs.isFile p = true → pyEndsWith (pyLower p) ".zip" = false →
      ∃ msg, unzip_file uz fs p d = .error (.valueError msg)) := by
  constructor
  · intro h
    rcases hc : fs.files p with _ | c
    · exact ⟨"No file found at: " ++ p, by simp [unzip_file, hc]⟩
    · rw [FS.isFile, hc] at h; simp at h
  · intro h1 h2
    rcases hc : fs.files p with _ | c
    · rw [FS.isFile, hc] at h1; simp at h1
    · exact ⟨"File is not a ZIP archive: " ++ p, by simp [unzip_file, hc, h2]⟩

/-- Witness for C5 at concrete inputs: a missing path raises
`FileNotFoundError`; an existing non-archive raises `ValueError`. -/
theorem unzip_file_C5_witness :
    (∃ msg, unzip_file uzOne fsZ "missing.zip" none = .error (.fileNotFoundError msg)) ∧
    (∃ msg, unzip_file uzOne fsT "file.txt" none = .error (.valueError msg)) :=
  ⟨(unzip_file_C5 uzOne fsZ "missing.zip" none).1 (by decide),
   (unzip_file_C5 uzOne fsT "file.txt" none).2 (by decide) (by decide)⟩

/-- Claim C9: in `unzip_file` the existence check (line 34) precedes the
extension check (line 37): a non-existing path raises `FileNotFoundError`
whatever its extension, and the `ValueError` of line 38 (InvalidFormat) is
raised only for paths that reference existing files. -/
theorem unzip_file_C9 (uz : List Nat → Option (List (String × List Nat))) (fs : FS)
    (p : String) (d : Option String) :
    (fs.isFile p = false →
      ∃ msg, unzip_file uz fs p d = .error (.fileNotFoundError msg)) ∧
    (∀ msg, unzip_file uz fs p d = .error (.valueError msg) → fs.isFile p = true) := by
  constructor
  · intro h
    rcases hc : fs.files p with _ | c
    · exact ⟨"No file found at: " ++ p, by simp [unzip_file, hc]⟩
    · rw [FS.isFile, hc] at h; simp at h
  · intro msg h
    rcases hc : fs.files p with _ | c
    · simp [unzip_file, hc] at h
    · rw [FS.isFile, hc]; rfl

/-- Witness for C9: a path that neither exists nor carries the `.zip` suffix
still raises `FileNotFoundError`, not `ValueError`. -/
theorem unzip_file_C9_witness :
    ∃ msg, unzip_file uzOne fsZ "ghost.txt" none = .error (.fileNotFoundError msg) :=
  (unzip_file_C9 uzOne fsZ "ghost.txt" none).1 (by decide)

/-- Claim C10: the archive-suffix check of line 37 is case-insensitive: an
existing, decodable archive whose name ends in any letter-case variant of
`.zip` passes the format check and is extracted (the call succeeds instead of
raising InvalidFormat). -/
theorem unzip_file_C10 (uz : List Nat → Option (List (String × List Nat))) (fs : FS)
    (p : String) (d : Option String) (content : List Nat)
    (members : List (String × List Nat)) (e : String)
    (hfile : fs.files p = some content)
    (hsuf : pyEndsWith p e = true)
    (hlow : pyLower e = ".zip")
    (hdec : uz content = some members) :
    ∃ fs2, unzip_file uz fs p d = .ok (d.getD (splitextRoot p), fs2) := by
  have hz : pyEndsWith (pyLower p) ".zip" = true := by
    obtain ⟨t, ht⟩ := isSuffixOf_exists _ _ hsuf
    have h2 : (pyLower p).toList = t.map Char.toLower ++ ".zip".toList := by
      show p.toList.map Char.toLower = _
      rw [ht, List.map_append]
      have h3 : e.toList.map Char.toLower = ".zip".toList := congrArg String.toList hlow
      rw [h3]
    show (".zip".toList.isSuffixOf (pyLower p).toList) = true
    rw [h2]
    exact isSuffixOf_append _ _
  refine ⟨members.foldl
      (fun a m => a.writeFile (pathJoin (d.getD (splitextRoot p)) m.1) m.2)
      (fs.makedirs (d.getD (splitextRoot p))), ?_⟩
  simp [unzip_file, hfile, hz, hdec]

/-- Witness for C10: the archive `b.ZIP` (upper-case extension) is accepted and
extracted. -/
theorem unzip_file_C10_witness :
    ∃ fs2, unzip_file uzOne fsU "b.ZIP" none = .ok ("b", fs2) :=
  unzip_file_C10 uzOne fsU "b.ZIP" none [80, 75] [("m.csv", [49])] ".ZIP"
    (by decide) (by decide) (by decide) (by decide)

/-- Claim C7: on success `unzip_file` uses the caller-supplied extraction
directory or, when none is given, the archive path with its extension
stripped; it creates that directory and any missing ancestor directory, writes
every archive member into it, and returns that directory path. -/
theorem unzip_file_C7 (uz : List Nat → Option (List (String × List Nat))) (fs : FS)
    (zp : String) (d : Option String) (content : List Nat)
    (members : List (String × List Nat))
    (hfile : fs.files zp = some content)
    (hzip : pyEndsWith (pyLower zp) ".zip" = true)
    (hdec : uz content = some members)
    (hkeys : (members.map (fun m => pathJoin (d.getD (splitextRoot zp)) m.1)).Nodup) :
    ∃ fs2,
      unzip_file uz fs zp d = .ok (d.getD (splitextRoot zp), fs2) ∧
      (∀ q ∈ ancestorPaths (d.getD (splitextRoot zp)), fs2.isDir q = true) ∧
      fs2.isDir (d.getD (splitextRoot zp)) = true ∧
      ∀ nm c, (nm, c) ∈ members →
        fs2.files (pathJoin (d.getD (splitextRoot zp)) nm) = some c := by
  refine ⟨members.foldl
      (fun a m => a.writeFile (pathJoin (d.getD (splitextRoot zp)) m.1) m.2)
      (fs.makedirs (d.getD (splitextRoot zp))), ?_, ?_, ?_, ?_⟩
  · simp [unzip_file, hfile, hzip, hdec]
  · intro q hq
    have hd : ((members.foldl
        (fun a m => a.writeFile (pathJoin (d.getD (splitextRoot zp)) m.1) m.2)
        (fs.makedirs (d.getD (splitextRoot zp)))).dirs) =
        (fs.makedirs (d.getD (splitextRoot zp))).dirs :=
      foldl_writeFile_dirs _ _ _
    rw [FS.isDir, hd]
    exact makedirs_isDir_of_mem _ _ _ hq
  · have hd : ((members.foldl
        (fun a m => a.writeFile (pathJoin (d.getD (splitextRoot zp)) m.1) m.2)
        (fs.makedirs (d.getD (splitextRoot zp)))).dirs) =
        (fs.makedirs (d.getD (splitextRoot zp))).dirs :=
      foldl_writeFile_dirs _ _ _
    rw [FS.isDir, hd]
    exact makedirs_isDir_self _ _
  · intro nm c hm
    exact foldl_writeFile_files_mem _ _ _ _ _ hm hkeys

/-- Witness for C7, with the default directory (`a` for `a.zip`) and with a
caller-supplied one. -/
theorem unzip_file_C7_witness :
    (∃ fs2, unzip_file uzOne fsZ "a.zip" none = .ok ("a", fs2)) ∧
    (∃ fs2, unzip_file uzOne fsZ "a.zip" (some "edir") = .ok ("edir", fs2)) := by
  constructor
  · obtain ⟨fs2, h, -, -, -⟩ := unzip_file_C7 uzOne fsZ "a.zip" none [80, 75]
      [("m.csv", [49])] (by decide) (by decide) (by decide) (by decide)
    exact ⟨fs2, h⟩
  · obtain ⟨fs2, h, -, -, -⟩ := unzip_file_C7 uzOne fsZ "a.zip" (some "edir") [80, 75]
      [("m.csv", [49])] (by decide) (by decide) (by decide) (by decide)
    exact ⟨fs2, h⟩

/-! Claims about the File Locator/Relocator (`move_to_project`). -/

/-- Claim C1 counterexample: a source directory containing exactly one file at
nesting depth two. The claim says `move_to_project` traverses recursively and
copies that file; the code instead takes the first entry of `os.listdir`, the
subdirectory `src/sub`, and `shutil.copy` raises `IsADirectoryError`. -/
theorem move_to_project_C1_cex :
    move_to_project fsN "src" "out" none = .error (.isADirectoryError "src/sub") := rfl

/-- Claim C1 (amended): the traversal is not recursive — `move_to_project`
looks only at the direct entries of the source directory and selects the
first. When the entry list consists of exactly one name and that name is a
file, the call with no filename copies that file to the destination,
preserving its basename and byte content. -/
theorem move_to_project_C1_amended (fs : FS) (src tgt sel : String) (c : List Nat)
    (hdir : fs.isDir src = true)
    (hls : fs.listdir src = [sel])
    (hfile : fs.files (pathJoin src sel) = some c)
    (hnd : (fs.makedirs tgt).isDir (pathJoin tgt sel) = false)
    (hne : pathJoin src sel ≠ pathJoin tgt sel) :
    ∃ fs2, move_to_project fs src tgt none = .ok (pathJoin tgt sel, fs2) ∧
      fs2.files (pathJoin tgt sel) = some c ∧
      fs2.files (pathJoin src sel) = some c := by
  refine ⟨(fs.makedirs tgt).writeFile (pathJoin tgt sel) c, ?_, ?_, ?_⟩
  · exact move_none_ok fs src tgt sel [] c hdir hls hfile hnd hne
  · exact writeFile_files_self _ _ _
  · rw [writeFile_files_ne _ _ _ _ hne, makedirs_files]
    exact hfile

/-- Witness for the amended C1: the directory `d` with the single direct file
`a.csv` is copied to `out/a.csv` with its two bytes intact. -/
theorem move_to_project_C1_witness :
    ∃ fs2, move_to_project fsA "d" "out" none = .ok (pathJoin "out" "a.csv", fs2) ∧
      fs2.files (pathJoin "out" "a.csv") = some [49, 50] ∧
      fs2.files (pathJoin "d" "a.csv") = some [49, 50] :=
  move_to_project_C1_amended fsA "d" "out" "a.csv" [49, 50]
    (by decide) (by decide) (by decide) (by decide) (by decide)

/-- Claim C2 counterexample: the claim says `locate_and_copy` succeeds when the
source location is a single file and no filename is given. The code requires a
directory: on the existing single file `f.csv` it raises `FileNotFoundError`
at the `os.path.isdir` check of line 79. -/
theorem move_to_project_C2_cex :
    move_to_project fsF "f.csv" "out" none =
      .error (.fileNotFoundError "Source directory not found: f.csv") := rfl

/-- Claim C2 (amended): `move_to_project` accepts only directory sources. It
raises NotFound (`FileNotFoundError`) exactly when the source path is not an
existing directory (including when it is an existing single file), when the
directory's direct entry list is empty, or when a specified non-empty filename
is not among the direct entries — under the consistency assumption that every
listed entry exists as a file or a directory. -/
theorem move_to_project_C2_amended (fs : FS) (src tgt : String) (fname : Option String)
    (hcons : ∀ e ∈ fs.listdir src,
      fs.isFile (pathJoin src e) = true ∨ fs.isDir (pathJoin src e) = true) :
    isNotFound (move_to_project fs src tgt fname) = true ↔
      fs.isDir src = false ∨ fs.listdir src = [] ∨
        ∃ f, fname = some f ∧ f ≠ "" ∧ f ∉ fs.listdir src := by
  by_cases hd : fs.isDir src = false
  · simp [move_to_project, hd, isNotFound]
  · have hd1 : fs.isDir src = true := by
      revert hd; cases fs.isDir src <;> simp
    rcases hl : fs.listdir src with _ | ⟨a, t⟩
    · simp [move_to_project, hd1, hl, isNotFound]
    · have hha : a ∈ fs.listdir src := by rw [hl]; exact List.mem_cons_self _ _
      have hna := finishCopy_not_notFound fs src tgt a (hcons a hha)
      rcases fname with _ | f
      · simp [move_to_project, hd1, hl, hna]
      · by_cases hf : f = ""
        · subst hf
          simp [move_to_project, hd1, hl, hna]
        · by_cases hm : f ∈ fs.listdir src
          · have hnf := finishCopy_not_notFound fs src tgt f (hcons f hm)
            have hm2 : f = a ∨ f ∈ t := by
              rw [hl] at hm; exact List.mem_cons.mp hm
            simp [move_to_project, hd1, hl, hf, hnf]
            rw [if_pos hm2, hnf]
            simp only [Bool.false_eq_true, false_iff]
            intro hc
            rcases hm2 with h | h
            · exact hc.1 h
            · exact hc.2 h
          · have hm2 : ¬(f = a ∨ f ∈ t) :=
              fun h => hm (by rw [hl]; exact List.mem_cons.mpr h)
            simp [move_to_project, hd1, hl, hf]
            rw [if_neg hm2]
            simp [isNotFound]
            exact ⟨fun h => hm2 (Or.inl h), fun h => hm2 (Or.inr h)⟩

/-- Witness for the amended C2 at a concrete state: requesting the absent
`x.csv` from directory `d`. -/
theorem move_to_project_C2_witness :
    isNotFound (move_to_project fsA "d" "out" (some "x.csv")) = true ↔
      fsA.isDir "d" = false ∨ fsA.listdir "d" = [] ∨
        ∃ f, (some "x.csv" : Option String) = some f ∧ f ≠ "" ∧ f ∉ fsA.listdir "d" :=
  move_to_project_C2_amended fsA "d" "out" (some "x.csv") (by decide)

/-- Claim C8: on every successful call, `move_to_project` copies rather than
moves. The selected source file still exists afterward with unchanged content,
the destination directory exists afterward (created if needed), the
destination file holds the copied content (overwriting whatever was there),
and the returned path is the destination directory joined with the selected
entry's name. Assumes no entry path under the target is itself a directory
(otherwise `shutil.copy` drops the file inside that directory). -/
theorem move_to_project_C8 (fs : FS) (src tgt : String) (fname : Option String)
    (ret : String) (fs2 : FS)
    (hclean : ∀ e ∈ fs.listdir src, (fs.makedirs tgt).isDir (pathJoin tgt e) = false)
    (hok : move_to_project fs src tgt fname = .ok (ret, fs2)) :
    ∃ sel c, sel ∈ fs.listdir src ∧
      ret = pathJoin tgt sel ∧
      fs.files (pathJoin src sel) = some c ∧
      fs2.files (pathJoin src sel) = some c ∧
      fs2.files ret = some c ∧
      fs2.isDir tgt = true := by
  obtain ⟨sel, hmem, hfc⟩ := move_inv fs src tgt fname ret fs2 hok
  obtain ⟨hret, c, hsrc, hne, hfs⟩ :=
    finishCopy_inv fs src tgt sel ret fs2 (hclean sel hmem) hfc
  subst hfs
  refine ⟨sel, c, hmem, hret, hsrc, ?_, ?_, ?_⟩
  · rw [writeFile_files_ne _ _ _ _ hne, makedirs_files]
    exact hsrc
  · rw [hret]
    exact writeFile_files_self _ _ _
  · exact makedirs_isDir_self fs tgt

/-- Witness for C8 at a concrete successful call: `d/a.csv` is copied to
`out/a.csv`; the source file survives with its content. -/
theorem move_to_project_C8_witness :
    ∃ sel c, sel ∈ fsA.listdir "d" ∧
      pathJoin "out" "a.csv" = pathJoin "out" sel ∧
      fsA.files (pathJoin "d" sel) = some c ∧
      ((fsA.makedirs "out").writeFile (pathJoin "out" "a.csv") [49, 50]).files
        (pathJoin "d" sel) = some c ∧
      ((fsA.makedirs "out").writeFile (pathJoin "out" "a.csv") [49, 50]).files
        (pathJoin "out" "a.csv") = some c ∧
      ((fsA.makedirs "out").writeFile (pathJoin "out" "a.csv") [49, 50]).isDir "out" = true :=
  move_to_project_C8 fsA "d" "out" none (pathJoin "out" "a.csv")
    ((fsA.makedirs "out").writeFile (pathJoin "out" "a.csv") [49, 50])
    (by decide) rfl

/-! Claims about the Tabular Loader (`csv_to_df`). -/

/-- Claim C3 counterexample: the claim says the local-path mode dispatches on
the file extension and raises UnsupportedFormat for `file.txt`. The code has
no such dispatch: the existing local file `file.txt` is handed to the CSV
parser and the call succeeds. -/
theorem csv_to_df_C3_cex :
    csv_to_df httpOffline rcNum fsT "file.txt" "data" = .ok (rcNum [104, 105], fsT) := rfl

/-- Claim C3 (amended): the local-path mode of `csv_to_df` does not dispatch on
the file extension. Every existing local file, whatever its extension, is
parsed with the CSV parser; there is no spreadsheet branch and no
UnsupportedFormat error for existing files. -/
theorem csv_to_df_C3_amended (http : Http) (rc : List Nat → Table) (fs : FS)
    (p d : String) (c : List Nat)
    (h1 : pyStartsWith p "http://" = false) (h2 : pyStartsWith p "https://" = false)
    (hfile : fs.files p = some c) :
    csv_to_df http rc fs p d = .ok (rc c, fs) :=
  csv_to_df_local_ok http rc fs p d c h1 h2 hfile

/-- Witness for the amended C3: a `.csv`-named local file is parsed the same
way — the branch is reached for any extension. -/
theorem csv_to_df_C3_witness :
    csv_to_df httpOffline rcNum fsF "f.csv" "data" = .ok (rcNum [49], fsF) :=
  csv_to_df_C3_amended httpOffline rcNum fsF "f.csv" "data" [49]
    (by decide) (by decide) (by decide)

/-- Claim C6: in URL mode (`http://` or `https://` input), `csv_to_df` derives
the local filename from the URL with the query part stripped, raises a
Download error (`ValueError`) when the transfer raises or when the response
status is a 4xx/5xx failure, and otherwise writes the received bytes into the
download directory (created if absent) and returns the parse of that content. -/
theorem csv_to_df_C6 (http : Http) (rc : List Nat → Table) (fs : FS) (url d : String)
    (hurl : pyStartsWith url "http://" = true ∨ pyStartsWith url "https://" = true) :
    (∀ e, http.get url = .error e →
      ∃ msg, csv_to_df http rc fs url d = .error (.valueError msg)) ∧
    (∀ status body, http.get url = .ok (status, body) → 400 ≤ status → status < 600 →
      ∃ msg, csv_to_df http rc fs url d = .error (.valueError msg)) ∧
    (∀ status body, http.get url = .ok (status, body) → ¬(400 ≤ status ∧ status < 600) →
      ∃ fs2, csv_to_df http rc fs url d = .ok (rc body, fs2) ∧
        fs2.isDir d = true ∧
        fs2.files (pathJoin d (pyBasename (stripQuery url))) = some body) := by
  have hcond : (pyStartsWith url "http://" || pyStartsWith url "https://") = true := by
    rcases hurl with h | h <;> simp [h]
  refine ⟨?_, ?_, ?_⟩
  · intro e he
    exact ⟨"Failed to download CSV from URL: " ++ e, by simp [csv_to_df, hcond, he]⟩
  · intro status body hg h4 h6
    refine ⟨"Failed to download CSV from URL: HTTPError " ++ toString status, ?_⟩
    simp only [csv_to_df, hcond, hg, if_true]
    rw [if_pos ⟨h4, h6⟩]
  · intro status body hg hns
    refine ⟨(fs.makedirs d).writeFile (pathJoin d (pyBasename (stripQuery url))) body,
      ?_, ?_, ?_⟩
    · simp only [csv_to_df, hcond, hg, if_true]
      rw [if_neg hns]
    · exact makedirs_isDir_self fs d
    · exact writeFile_files_self _ _ _

/-- Witness for C6: the URL of the spec scenario. `https://host/data.csv?x=1`
is downloaded to `data/data.csv` and the returned table is the parse of the
transferred bytes. -/
theorem csv_to_df_C6_witness :
    ∃ fs2, csv_to_df httpOne rcNum fsT "https://host/data.csv?x=1" "data" =
        .ok (rcNum [49, 44, 50], fs2) ∧
      fs2.isDir "data" = true ∧
      fs2.files (pathJoin "data" (pyBasename (stripQuery "https://host/data.csv?x=1"))) =
        some [49, 44, 50] :=
  (csv_to_df_C6 httpOne rcNum fsT "https://host/data.csv?x=1" "data"
    (Or.inr (by decide))).2.2 200 [49, 44, 50] rfl (by decide)

/-! Claims about the Dataset Orchestrator (`read_kaggle_dataset`). -/

/-- Claim C4 counterexample: the claim says the orchestrator optionally
accepts a target filename and passes it to the locator. The code has no such
parameter and always calls `move_to_project` with none: on a cache holding
`b.csv` before `a.csv`, the code loads `b.csv` and cannot reproduce the
spec-modelled orchestrator's selection of the filename `a.csv`. -/
theorem read_kaggle_dataset_C4_cex :
    tableOf (read_kaggle_dataset httpOffline rcNum dlCache "proj" fsK "u" "out") =
        some [["50"]] ∧
    tableOf (fetch_hosted_dataset_spec httpOffline rcNum dlCache "proj" fsK "u" "out"
        (some "a.csv")) = some [["49"]] ∧
    tableOf (read_kaggle_dataset httpOffline rcNum dlCache "proj" fsK "u" "out") ≠
      tableOf (fetch_hosted_dataset_spec httpOffline rcNum dlCache "proj" fsK "u" "out"
        (some "a.csv")) := by
  have h1 : tableOf (read_kaggle_dataset httpOffline rcNum dlCache "proj" fsK "u" "out") =
      some [["50"]] := rfl
  have h2 : tableOf (fetch_hosted_dataset_spec httpOffline rcNum dlCache "proj" fsK "u"
      "out" (some "a.csv")) = some [["49"]] := rfl
  exact ⟨h1, h2, by rw [h1, h2]; decide⟩

/-- Claim C4 (amended): `read_kaggle_dataset` accepts only a dataset
identifier and a target directory, defaulting to the `data` subdirectory of
the working directory — there is no filename parameter. It invokes the
download service, passes the returned path and the target directory to the
locator with no filename (so the first listed entry is selected), loads the
copied file with the tabular loader, and returns the resulting table. -/
theorem read_kaggle_dataset_C4_amended (http : Http) (rc : List Nat → Table)
    (dl : String → String) (cwd : String) (fs : FS) (url target sel : String)
    (rest : List String) (c : List Nat)
    (hdir : fs.isDir (dl url) = true)
    (hls : fs.listdir (dl url) = sel :: rest)
    (hfile : fs.files (pathJoin (dl url) sel) = some c)
    (hnd : (fs.makedirs target).isDir (pathJoin target sel) = false)
    (hne : pathJoin (dl url) sel ≠ pathJoin target sel)
    (hnu1 : pyStartsWith (pathJoin target sel) "http://" = false)
    (hnu2 : pyStartsWith (pathJoin target sel) "https://" = false) :
    read_kaggle_dataset http rc dl cwd fs url target =
      .ok (rc c, (fs.makedirs target).writeFile (pathJoin target sel) c) ∧
    read_kaggle_dataset http rc dl cwd fs url =
      read_kaggle_dataset http rc dl cwd fs url (pathJoin cwd "data") := by
  constructor
  · have hm := move_none_ok fs (dl url) target sel rest c hdir hls hfile hnd hne
    rw [read_kaggle_dataset, hm]
    exact csv_to_df_local_ok http rc _ _ "data" c hnu1 hnu2 (writeFile_files_self _ _ _)
  · rfl

/-- Witness for the amended C4: the cache resolves to `cache`, whose first
entry `b.csv` is copied to `out/b.csv` and parsed. -/
theorem read_kaggle_dataset_C4_witness :
    read_kaggle_dataset httpOffline rcNum dlCache "proj" fsK "u" "out" =
      .ok (rcNum [50], (fsK.makedirs "out").writeFile (pathJoin "out" "b.csv") [50]) ∧
    read_kaggle_dataset httpOffline rcNum dlCache "proj" fsK "u" =
      read_kaggle_dataset httpOffline rcNum dlCache "proj" fsK "u" (pathJoin "proj" "data") :=
  read_kaggle_dataset_C4_amended httpOffline rcNum dlCache "proj" fsK "u" "out" "b.csv"
    ["a.csv"] [50] (by decide) (by decide) (by decide) (by decide) (by decide)
    (by decide) (by decide)
